import Mathlib

/-!
Verification of the node-graph editing model of `EnvelopeGraph`
(src/include/envelopegraph.h).

The repository ships only the class header: declarations, doc comments and
in-class member initializers (`m_bAllowAddNodes = true`, `m_bInhibitUpdate
= true`, `m_nSustain = -1`).  The method bodies are not part of the source
tree, so every operation below is modelled from the specification's
contract for it (section 4 of the spec), over a state record whose fields
mirror the header's data members.  Change notification (`SendEvent`) is
modelled as a counter of emitted events: each event carries no payload, so
counting them captures the observable behaviour.
-/

/-- A node: a 2D point (x, y) in value space (mirrors wxPoint usage). -/
structure Point where
  x : Int
  y : Int
deriving DecidableEq, Repr

instance : Inhabited Point := ⟨⟨0, 0⟩⟩

/-- State of an `EnvelopeGraph` widget.  Field names follow the data
members declared in the header; `m_vRemoveDisabled` realises the spec's
per-node remove-enabled flag (toggled by `AllowRemoveNode` matching a
point), and `events` counts change notifications sent by `SendEvent`. -/
structure EnvelopeGraph where
  m_vNodes : List Point
  m_nMaxNodes : Nat
  m_nSustain : Int
  m_bInhibitUpdate : Bool
  m_bAllowAddNodes : Bool
  m_vRemoveDisabled : List Point
  m_nMinimumY : Int
  m_nMaximumY : Int
  m_nScaleX : Int
  m_nScaleY : Int
  m_nOriginX : Int
  m_nBaseline : Int
  m_nScrollX : Int
  m_nScrollY : Int
  m_nDragNode : Int
  m_ptOrigin : Point
  events : Nat
deriving DecidableEq, Repr

namespace EnvelopeGraph

/-- Modelled from the spec: `SendEvent` emits one change notification
(no payload) unless updates are inhibited (spec 4.4). -/
def SendEvent (g : EnvelopeGraph) : EnvelopeGraph :=
  if g.m_bInhibitUpdate then g else { g with events := g.events + 1 }

/-- `InhibitUpdates(bInhibit)`: controls if events are sent (header line 45,
spec 4.4). -/
def InhibitUpdates (bInhibit : Bool) (g : EnvelopeGraph) : EnvelopeGraph :=
  { g with m_bInhibitUpdate := bInhibit }

/-- Ascending-x ordering of the node sequence (spec 3: sorted ascending
by x, ties allowed). -/
def sortedByX (l : List Point) : Prop :=
  l.Pairwise (fun a b => a.x ≤ b.x)

/-- Modelled from the spec: the insertion position `AddNode` uses — after
existing entries with x ≤ the new point's x, before the first entry with
strictly larger x (spec 4.1: ties insert after existing equal-x entries). -/
def insertPos (p : Point) : List Point → Nat
  | [] => 0
  | q :: qs => if p.x < q.x then 0 else insertPos p qs + 1

/-- Modelled from the spec: ordered insertion of a node at `insertPos`. -/
def insertNode (p : Point) : List Point → List Point
  | [] => [p]
  | q :: qs => if p.x < q.x then p :: q :: qs else q :: insertNode p qs

/-- Modelled from the spec: `AddNode(node)` (header line 54, spec 4.1) —
fails with -1 if the sequence is already at `m_nMaxNodes`; otherwise
inserts at the horizontal position preserving ascending-x order and
returns the resulting index, notifying via `SendEvent`. -/
def AddNode (p : Point) (g : EnvelopeGraph) : EnvelopeGraph × Int :=
  if g.m_vNodes.length ≥ g.m_nMaxNodes then (g, -1)
  else
    (SendEvent { g with m_vNodes := insertNode p g.m_vNodes },
     (insertPos p g.m_vNodes : Int))

/-- Modelled from the spec: `RemoveNode(index)` (header line 62, spec 4.1)
— fails if the index is out of bounds, if removal would drop the count
below 2, or if the node is flagged remove-disabled; on success erases the
node, fixes up the sustain index and notifies. -/
def RemoveNode (i : Nat) (g : EnvelopeGraph) : EnvelopeGraph × Bool :=
  if g.m_vNodes.length ≤ i then (g, false)
  else if g.m_vNodes.length ≤ 2 then (g, false)
  else if g.m_vNodes.getD i default ∈ g.m_vRemoveDisabled then (g, false)
  else
    (SendEvent
      { g with
        m_vNodes := g.m_vNodes.eraseIdx i,
        m_nSustain :=
          if (i : Int) = g.m_nSustain then -1
          else if (i : Int) < g.m_nSustain then g.m_nSustain - 1
          else g.m_nSustain },
     true)

/-- Modelled from the spec: `Clear()` (header line 67, spec 4.1) — resets
to the minimal 2-node default sequence (first node at the origin, last at
the default end position (100, 0)), clears sustain and drag state, and
notifies. -/
def Clear (g : EnvelopeGraph) : EnvelopeGraph :=
  SendEvent
    { g with
      m_vNodes := [g.m_ptOrigin, ⟨100, 0⟩],
      m_nSustain := -1,
      m_nDragNode := -1 }

/-- `GetNodeCount()` (header line 72): quantity of nodes. -/
def GetNodeCount (g : EnvelopeGraph) : Nat := g.m_vNodes.length

/-- `SetMaxNodes(maxNodes)` (header line 77, spec 4.1): sets the cap; does
not truncate existing nodes. -/
def SetMaxNodes (n : Nat) (g : EnvelopeGraph) : EnvelopeGraph :=
  { g with m_nMaxNodes := n }

/-- `GetMaxNodes()` (header line 82). -/
def GetMaxNodes (g : EnvelopeGraph) : Nat := g.m_nMaxNodes

/-- `AllowAddNodes(enable)` (header line 87). -/
def AllowAddNodes (b : Bool) (g : EnvelopeGraph) : EnvelopeGraph :=
  { g with m_bAllowAddNodes := b }

/-- Modelled from the spec: `AllowRemoveNode(enable, node)` (header line
93, spec 4.3) — toggles the remove-enabled flag for the node matching the
given point. -/
def AllowRemoveNode (b : Bool) (p : Point) (g : EnvelopeGraph) : EnvelopeGraph :=
  if b then
    { g with m_vRemoveDisabled := g.m_vRemoveDisabled.filter (fun q => decide (q ≠ p)) }
  else
    { g with m_vRemoveDisabled := p :: g.m_vRemoveDisabled }

/-- Modelled from the spec: `SetNode(nNode, ptPosition)` (header line 114,
spec 4.1) — no-op when the index is out of bounds, otherwise overwrites
the node's coordinates without re-sorting. -/
def SetNode (i : Nat) (p : Point) (g : EnvelopeGraph) : EnvelopeGraph :=
  if i < g.m_vNodes.length then { g with m_vNodes := g.m_vNodes.set i p } else g

/-- `GetNode(nNode)` (header line 120): position of a node. -/
def GetNode (i : Nat) (g : EnvelopeGraph) : Point :=
  g.m_vNodes.getD i default

/-- Modelled from the spec: `SetSustain(nNode)` (header line 125, spec 4.3
and 4.4) — sets the sustain index (-1 clears) and notifies the
sustain-change. -/
def SetSustain (n : Int) (g : EnvelopeGraph) : EnvelopeGraph :=
  SendEvent { g with m_nSustain := n }

/-- `GetSustain()` (header line 130): sustain node index or -1 if none. -/
def GetSustain (g : EnvelopeGraph) : Int := g.m_nSustain

/-- Integer clamp into [lo, hi] (left bound wins if the interval is
empty). -/
def clampI (lo hi v : Int) : Int := max lo (min hi v)

/-- Modelled from the spec: `GetNodeCentre(ptNode)` (header line 147, spec
4.2 ToScreen) — pixelX = originX + x * scaleX, pixelY = baseline -
y * scaleY, adjusted by the scroll offset. -/
def GetNodeCentre (g : EnvelopeGraph) (p : Point) : Point :=
  ⟨g.m_nOriginX + p.x * g.m_nScaleX - g.m_nScrollX,
   g.m_nBaseline - p.y * g.m_nScaleY - g.m_nScrollY⟩

/-- Modelled from the spec: `GetNodeFromCentre(ptPos)` (header line 148,
spec 4.2 ToValue) — inverse transform, y clamped into
[m_nMinimumY, m_nMaximumY], x clamped non-negative. -/
def GetNodeFromCentre (g : EnvelopeGraph) (q : Point) : Point :=
  ⟨max 0 ((q.x + g.m_nScrollX - g.m_nOriginX) / g.m_nScaleX),
   clampI g.m_nMinimumY g.m_nMaximumY
     ((g.m_nBaseline - (q.y + g.m_nScrollY)) / g.m_nScaleY)⟩

/-- Modelled from the spec: the `OnMotion` update of a dragged interior
node (header line 137, spec 4.3) — the target's x is clamped to the open
interval between the neighbours' x (just inside), y is clamped into
[m_nMinimumY, m_nMaximumY]. -/
def OnMotionInterior (g : EnvelopeGraph) (i : Nat) (target : Point) : EnvelopeGraph :=
  if 0 < i ∧ i + 1 < g.m_vNodes.length then
    { g with
      m_vNodes :=
        g.m_vNodes.set i
          ⟨clampI ((g.m_vNodes.getD (i - 1) default).x + 1)
                  ((g.m_vNodes.getD (i + 1) default).x - 1) target.x,
           clampI g.m_nMinimumY g.m_nMaximumY target.y⟩ }
  else g

/-- Modelled from the spec: `OnMouseLeftUp` drag finalisation (header line
136, spec 4.3) — returns to idle and triggers the change notification. -/
def OnMouseLeftUp (g : EnvelopeGraph) : EnvelopeGraph :=
  SendEvent { g with m_nDragNode := -1 }

/-- Construction: flags from the header's in-class member initializers
(m_bAllowAddNodes = true, m_bInhibitUpdate = true, m_nSustain = -1);
modelled from the spec for the rest: the sequence starts with exactly the
2 default nodes (0,0) and (100,0), no drag in progress, no events sent. -/
def construct (maxNodes : Nat) (minY maxY scaleX scaleY originX baseline : Int) :
    EnvelopeGraph :=
  { m_vNodes := [⟨0, 0⟩, ⟨100, 0⟩],
    m_nMaxNodes := maxNodes,
    m_nSustain := -1,
    m_bInhibitUpdate := true,
    m_bAllowAddNodes := true,
    m_vRemoveDisabled := [],
    m_nMinimumY := minY,
    m_nMaximumY := maxY,
    m_nScaleX := scaleX,
    m_nScaleY := scaleY,
    m_nOriginX := originX,
    m_nBaseline := baseline,
    m_nScrollX := 0,
    m_nScrollY := 0,
    m_nDragNode := -1,
    m_ptOrigin := ⟨0, 0⟩,
    events := 0 }

/-- A concrete widget state used to evaluate theorems on explicit
inputs. -/
def sample (nodes : List Point) (mx : Nat) (sus : Int) (inh : Bool)
    (dis : List Point) : EnvelopeGraph :=
  { m_vNodes := nodes, m_nMaxNodes := mx, m_nSustain := sus,
    m_bInhibitUpdate := inh, m_bAllowAddNodes := true,
    m_vRemoveDisabled := dis, m_nMinimumY := 0, m_nMaximumY := 127,
    m_nScaleX := 2, m_nScaleY := 3, m_nOriginX := 5, m_nBaseline := 200,
    m_nScrollX := 4, m_nScrollY := 6, m_nDragNode := -1,
    m_ptOrigin := ⟨0, 0⟩, events := 0 }

end EnvelopeGraph

open EnvelopeGraph

lemma SendEvent_m_vNodes (g : EnvelopeGraph) :
    (SendEvent g).m_vNodes = g.m_vNodes := by
  unfold SendEvent; split <;> rfl

lemma SendEvent_m_nSustain (g : EnvelopeGraph) :
    (SendEvent g).m_nSustain = g.m_nSustain := by
  unfold SendEvent; split <;> rfl

lemma SendEvent_of_inhibited (g : EnvelopeGraph) (h : g.m_bInhibitUpdate = true) :
    SendEvent g = g := by
  unfold SendEvent; rw [h]; rfl

lemma SendEvent_events_of_active (g : EnvelopeGraph) (h : g.m_bInhibitUpdate = false) :
    (SendEvent g).events = g.events + 1 := by
  unfold SendEvent; rw [h]; rfl

lemma SendEvent_events_of_inhibited (g : EnvelopeGraph) (h : g.m_bInhibitUpdate = true) :
    (SendEvent g).events = g.events := by
  unfold SendEvent; rw [h]; rfl

instance (l : List Point) : Decidable (sortedByX l) := by
  unfold sortedByX
  exact List.instDecidablePairwise l

lemma insertPos_le_length (p : Point) (l : List Point) :
    insertPos p l ≤ l.length := by
  induction l with
  | nil => exact Nat.le_refl 0
  | cons q qs ih =>
    unfold insertPos
    split
    · exact Nat.zero_le _
    · exact Nat.succ_le_succ ih

lemma insertNode_eq_take_cons_drop (p : Point) (l : List Point) :
    insertNode p l = l.take (insertPos p l) ++ p :: l.drop (insertPos p l) := by
  induction l with
  | nil => rfl
  | cons q qs ih =>
    unfold insertNode insertPos
    by_cases hc : p.x < q.x
    · rw [if_pos hc, if_pos hc]
      rfl
    · rw [if_neg hc, if_neg hc, List.take_succ_cons, List.drop_succ_cons,
        List.cons_append, ih]

lemma mem_take_insertPos (p : Point) (l : List Point) :
    ∀ q ∈ l.take (insertPos p l), q.x ≤ p.x := by
  induction l with
  | nil => intro q hq; simp at hq
  | cons r rs ih =>
    unfold insertPos
    by_cases hc : p.x < r.x
    · rw [if_pos hc]
      intro q hq
      simp at hq
    · rw [if_neg hc, List.take_succ_cons]
      intro q hq
      rcases List.mem_cons.mp hq with h | h
      · subst h; omega
      · exact ih q h

lemma mem_drop_insertPos (p : Point) (l : List Point) (hs : sortedByX l) :
    ∀ q ∈ l.drop (insertPos p l), p.x < q.x := by
  induction l with
  | nil => intro q hq; simp at hq
  | cons r rs ih =>
    rcases List.pairwise_cons.mp hs with ⟨hr, hrs⟩
    unfold insertPos
    by_cases hc : p.x < r.x
    · rw [if_pos hc, List.drop_zero]
      intro q hq
      rcases List.mem_cons.mp hq with h | h
      · subst h; exact hc
      · have := hr q h; omega
    · rw [if_neg hc, List.drop_succ_cons]
      exact ih hrs

lemma insertNode_sorted (p : Point) (l : List Point) (hs : sortedByX l) :
    sortedByX (insertNode p l) := by
  rw [insertNode_eq_take_cons_drop]
  unfold sortedByX at hs ⊢
  rw [List.pairwise_append]
  refine ⟨hs.sublist (List.take_sublist _ _), ?_, ?_⟩
  · rw [List.pairwise_cons]
    refine ⟨fun q hq => le_of_lt (mem_drop_insertPos p l hs q hq),
      hs.sublist (List.drop_sublist _ _)⟩
  · intro a ha b hb
    have ha' := mem_take_insertPos p l a ha
    rcases List.mem_cons.mp hb with h | h
    · subst h; exact ha'
    · have := mem_drop_insertPos p l hs b h; omega

/-- C1: a successful `AddNode` returns the insertion index, the new
sequence is the old one with the point inserted at exactly that index
(after all entries with x ≤ the point's x, before all entries with
strictly greater x), the point resides at the returned index, and the
sequence stays sorted non-decreasing by x. -/
theorem AddNode_sorted_insert (g : EnvelopeGraph) (p : Point)
    (hs : sortedByX g.m_vNodes) (hcap : g.m_vNodes.length < g.m_nMaxNodes) :
    (AddNode p g).2 = (insertPos p g.m_vNodes : Int) ∧
    (AddNode p g).1.m_vNodes =
      g.m_vNodes.take (insertPos p g.m_vNodes) ++
        p :: g.m_vNodes.drop (insertPos p g.m_vNodes) ∧
    (AddNode p g).1.m_vNodes[insertPos p g.m_vNodes]? = some p ∧
    (∀ q ∈ g.m_vNodes.take (insertPos p g.m_vNodes), q.x ≤ p.x) ∧
    (∀ q ∈ g.m_vNodes.drop (insertPos p g.m_vNodes), p.x < q.x) ∧
    sortedByX (AddNode p g).1.m_vNodes := by
  have hnodes : (AddNode p g).1.m_vNodes = insertNode p g.m_vNodes := by
    unfold AddNode
    rw [if_neg (by omega)]
    exact SendEvent_m_vNodes _
  have hidx : (AddNode p g).2 = (insertPos p g.m_vNodes : Int) := by
    unfold AddNode
    rw [if_neg (by omega)]
  refine ⟨hidx, ?_, ?_, mem_take_insertPos p _, mem_drop_insertPos p _ hs, ?_⟩
  · rw [hnodes, insertNode_eq_take_cons_drop]
  · rw [hnodes, insertNode_eq_take_cons_drop]
    have hlen : (g.m_vNodes.take (insertPos p g.m_vNodes)).length =
        insertPos p g.m_vNodes := by
      rw [List.length_take]
      exact Nat.min_eq_left (insertPos_le_length p _)
    rw [List.getElem?_append_right (le_of_eq hlen), hlen, Nat.sub_self,
      List.getElem?_cons_zero]
  · rw [hnodes]
    exact insertNode_sorted p _ hs

/-- Witness for C1: the spec's scenario — adding (50, 64) to the default
2-node sequence lands at index 1 and keeps the sequence sorted. -/
theorem AddNode_sorted_insert_witness :
    sortedByX (sample [⟨0, 0⟩, ⟨100, 0⟩] 5 (-1) false []).m_vNodes ∧
    (sample [⟨0, 0⟩, ⟨100, 0⟩] 5 (-1) false []).m_vNodes.length <
      (sample [⟨0, 0⟩, ⟨100, 0⟩] 5 (-1) false []).m_nMaxNodes ∧
    (AddNode ⟨50, 64⟩ (sample [⟨0, 0⟩, ⟨100, 0⟩] 5 (-1) false [])).2 =
      (insertPos ⟨50, 64⟩ (sample [⟨0, 0⟩, ⟨100, 0⟩] 5 (-1) false []).m_vNodes : Int) ∧
    sortedByX (AddNode ⟨50, 64⟩ (sample [⟨0, 0⟩, ⟨100, 0⟩] 5 (-1) false [])).1.m_vNodes :=
  ⟨by decide, by decide,
   (AddNode_sorted_insert _ ⟨50, 64⟩ (by decide) (by decide)).1,
   (AddNode_sorted_insert _ ⟨50, 64⟩ (by decide) (by decide)).2.2.2.2.2⟩

/-- C2: at capacity (`length = m_nMaxNodes`), `AddNode` returns -1 and
leaves the whole state — in particular the node sequence — unchanged. -/
theorem AddNode_at_cap (g : EnvelopeGraph) (p : Point)
    (h : g.m_vNodes.length = g.m_nMaxNodes) :
    AddNode p g = (g, -1) := by
  unfold AddNode
  rw [if_pos (le_of_eq h.symm)]

/-- Witness for C2 on a concrete 2-node state with cap 2. -/
theorem AddNode_at_cap_witness :
    (sample [⟨0, 0⟩, ⟨100, 0⟩] 2 (-1) true []).m_vNodes.length =
      (sample [⟨0, 0⟩, ⟨100, 0⟩] 2 (-1) true []).m_nMaxNodes ∧
    AddNode ⟨50, 64⟩ (sample [⟨0, 0⟩, ⟨100, 0⟩] 2 (-1) true []) =
      (sample [⟨0, 0⟩, ⟨100, 0⟩] 2 (-1) true [], -1) :=
  ⟨by decide, AddNode_at_cap _ _ (by decide)⟩

/-- C3: `RemoveNode` fails and leaves the state unchanged whenever the
index is out of bounds, the sequence holds no more than 2 nodes (so in
particular on every 2-node sequence for every index), or the target node
is flagged remove-disabled. -/
theorem RemoveNode_fail (g : EnvelopeGraph) (i : Nat)
    (h : g.m_vNodes.length ≤ 2 ∨ g.m_vNodes.length ≤ i ∨
         g.m_vNodes.getD i default ∈ g.m_vRemoveDisabled) :
    RemoveNode i g = (g, false) := by
  unfold RemoveNode
  by_cases hoob : g.m_vNodes.length ≤ i
  · rw [if_pos hoob]
  · rw [if_neg hoob]
    by_cases h2 : g.m_vNodes.length ≤ 2
    · rw [if_pos h2]
    · rw [if_neg h2]
      rcases h with hc | hc | hc
      · exact absurd hc h2
      · exact absurd hc hoob
      · rw [if_pos hc]

/-- Witness for C3 on a concrete 2-node state, index 0. -/
theorem RemoveNode_fail_witness :
    ((sample [⟨0, 0⟩, ⟨100, 0⟩] 5 (-1) false []).m_vNodes.length ≤ 2 ∨
     (sample [⟨0, 0⟩, ⟨100, 0⟩] 5 (-1) false []).m_vNodes.length ≤ 0 ∨
     (sample [⟨0, 0⟩, ⟨100, 0⟩] 5 (-1) false []).m_vNodes.getD 0 default ∈
       (sample [⟨0, 0⟩, ⟨100, 0⟩] 5 (-1) false []).m_vRemoveDisabled) ∧
    RemoveNode 0 (sample [⟨0, 0⟩, ⟨100, 0⟩] 5 (-1) false []) =
      (sample [⟨0, 0⟩, ⟨100, 0⟩] 5 (-1) false [], false) :=
  ⟨Or.inl (by decide), RemoveNode_fail _ _ (Or.inl (by decide))⟩

/-- C4: when `RemoveNode i` succeeds on a state with sustain index
`s ≥ 0`: removing the sustain node clears sustain to -1, removing a node
before it decrements the sustain index, removing a node after it leaves
the sustain index unchanged. -/
theorem RemoveNode_sustain (g : EnvelopeGraph) (i : Nat)
    (hsus : 0 ≤ g.m_nSustain)
    (hsucc : (RemoveNode i g).2 = true) :
    ((i : Int) = g.m_nSustain → (RemoveNode i g).1.GetSustain = -1) ∧
    ((i : Int) < g.m_nSustain →
      (RemoveNode i g).1.GetSustain = g.m_nSustain - 1) ∧
    (g.m_nSustain < (i : Int) →
      (RemoveNode i g).1.GetSustain = g.m_nSustain) := by
  by_cases hoob : g.m_vNodes.length ≤ i
  · exfalso
    unfold RemoveNode at hsucc
    rw [if_pos hoob] at hsucc
    simp at hsucc
  · by_cases h2 : g.m_vNodes.length ≤ 2
    · exfalso
      unfold RemoveNode at hsucc
      rw [if_neg hoob, if_pos h2] at hsucc
      simp at hsucc
    · by_cases hdis : g.m_vNodes.getD i default ∈ g.m_vRemoveDisabled
      · exfalso
        unfold RemoveNode at hsucc
        rw [if_neg hoob, if_neg h2, if_pos hdis] at hsucc
        simp at hsucc
      · unfold RemoveNode
        rw [if_neg hoob, if_neg h2, if_neg hdis]
        dsimp only [GetSustain]
        rw [SendEvent_m_nSustain]
        dsimp only
        refine ⟨?_, ?_, ?_⟩ <;> intro hc
        · rw [if_pos hc]
        · rw [if_neg (by omega), if_pos hc]
        · rw [if_neg (by omega), if_neg (by omega)]

/-- Witness for C4: removing index 0 before sustain index 1 on a concrete
3-node state decrements the sustain index to 0. -/
theorem RemoveNode_sustain_witness :
    0 ≤ (sample [⟨0, 0⟩, ⟨50, 64⟩, ⟨100, 0⟩] 5 1 false []).m_nSustain ∧
    (RemoveNode 0 (sample [⟨0, 0⟩, ⟨50, 64⟩, ⟨100, 0⟩] 5 1 false [])).2 = true ∧
    (RemoveNode 0 (sample [⟨0, 0⟩, ⟨50, 64⟩, ⟨100, 0⟩] 5 1 false [])).1.GetSustain =
      (sample [⟨0, 0⟩, ⟨50, 64⟩, ⟨100, 0⟩] 5 1 false []).m_nSustain - 1 :=
  ⟨by decide, by decide,
   (RemoveNode_sustain _ 0 (by decide) (by decide)).2.1 (by decide)⟩

lemma clampI_mem (lo hi v : Int) (h : lo ≤ hi) :
    lo ≤ clampI lo hi v ∧ clampI lo hi v ≤ hi := by
  unfold clampI
  exact ⟨le_max_left _ _, max_le h (min_le_left _ _)⟩

lemma getD_eq_getElem_of_lt (l : List Point) (n : Nat) (h : n < l.length) :
    l.getD n default = l[n] := by
  rw [List.getD_eq_getElem?_getD, List.getElem?_eq_getElem h]
  rfl

lemma sortedByX_set (l : List Point) (i : Nat) (p : Point)
    (hs : sortedByX l) (h0 : 0 < i) (hlen : i + 1 < l.length)
    (hlo : (l.getD (i - 1) default).x ≤ p.x)
    (hhi : p.x ≤ (l.getD (i + 1) default).x) :
    sortedByX (l.set i p) := by
  have hi : i < l.length := by omega
  have him : i - 1 < l.length := by omega
  rw [getD_eq_getElem_of_lt l (i - 1) him] at hlo
  rw [getD_eq_getElem_of_lt l (i + 1) hlen] at hhi
  have hmono := List.pairwise_iff_getElem.mp hs
  unfold sortedByX
  rw [List.pairwise_iff_getElem]
  intro a b ha hb hab
  rw [List.length_set] at ha hb
  rw [List.getElem_set, List.getElem_set]
  by_cases hai : i = a
  · subst hai
    rw [if_pos rfl, if_neg (by omega)]
    by_cases hbe : b = i + 1
    · subst hbe
      exact hhi
    · exact le_trans hhi (hmono (i + 1) b hlen hb (by omega))
  · rw [if_neg hai]
    by_cases hbi : i = b
    · subst hbi
      rw [if_pos rfl]
      by_cases hae : a = i - 1
      · subst hae
        exact hlo
      · exact le_trans (hmono a (i - 1) ha him (by omega)) hlo
    · rw [if_neg hbi]
      exact hmono a b ha hb hab

/-- C5: while dragging interior node `i`, the pointer-move update clamps
the node's new x strictly between the neighbours' x and its y into
[m_nMinimumY, m_nMaximumY], so the sequence stays sorted — dragging can
never reorder it. -/
theorem OnMotionInterior_clamps (g : EnvelopeGraph) (i : Nat) (target : Point)
    (hs : sortedByX g.m_vNodes) (h0 : 0 < i) (hlen : i + 1 < g.m_vNodes.length)
    (hgap : (g.m_vNodes.getD (i - 1) default).x + 1 ≤
            (g.m_vNodes.getD (i + 1) default).x - 1)
    (hy : g.m_nMinimumY ≤ g.m_nMaximumY) :
    (g.m_vNodes.getD (i - 1) default).x <
      ((OnMotionInterior g i target).m_vNodes.getD i default).x ∧
    ((OnMotionInterior g i target).m_vNodes.getD i default).x <
      (g.m_vNodes.getD (i + 1) default).x ∧
    g.m_nMinimumY ≤ ((OnMotionInterior g i target).m_vNodes.getD i default).y ∧
    ((OnMotionInterior g i target).m_vNodes.getD i default).y ≤ g.m_nMaximumY ∧
    sortedByX (OnMotionInterior g i target).m_vNodes := by
  have hi : i < g.m_vNodes.length := by omega
  have hnodes : (OnMotionInterior g i target).m_vNodes =
      g.m_vNodes.set i
        ⟨clampI ((g.m_vNodes.getD (i - 1) default).x + 1)
                ((g.m_vNodes.getD (i + 1) default).x - 1) target.x,
         clampI g.m_nMinimumY g.m_nMaximumY target.y⟩ := by
    unfold OnMotionInterior
    rw [if_pos ⟨h0, hlen⟩]
  have hset : i < (g.m_vNodes.set i
      ⟨clampI ((g.m_vNodes.getD (i - 1) default).x + 1)
              ((g.m_vNodes.getD (i + 1) default).x - 1) target.x,
       clampI g.m_nMinimumY g.m_nMaximumY target.y⟩).length := by
    rw [List.length_set]
    exact hi
  have hget : (OnMotionInterior g i target).m_vNodes.getD i default =
      ⟨clampI ((g.m_vNodes.getD (i - 1) default).x + 1)
              ((g.m_vNodes.getD (i + 1) default).x - 1) target.x,
       clampI g.m_nMinimumY g.m_nMaximumY target.y⟩ := by
    rw [hnodes, getD_eq_getElem_of_lt _ i hset, List.getElem_set, if_pos rfl]
  have hxb := clampI_mem ((g.m_vNodes.getD (i - 1) default).x + 1)
    ((g.m_vNodes.getD (i + 1) default).x - 1) target.x hgap
  have hyb := clampI_mem g.m_nMinimumY g.m_nMaximumY target.y hy
  refine ⟨?_, ?_, ?_, ?_, ?_⟩
  · rw [hget]
    dsimp only
    omega
  · rw [hget]
    dsimp only
    omega
  · rw [hget]
    dsimp only
    exact hyb.1
  · rw [hget]
    dsimp only
    exact hyb.2
  · rw [hnodes]
    refine sortedByX_set _ i _ hs h0 hlen ?_ ?_
    · dsimp only
      omega
    · dsimp only
      omega

/-- Witness for C5: dragging the middle of three nodes far beyond its
right neighbour clamps to just inside and keeps the sequence sorted. -/
theorem OnMotionInterior_clamps_witness :
    sortedByX (sample [⟨0, 0⟩, ⟨50, 64⟩, ⟨100, 0⟩] 5 (-1) false []).m_vNodes ∧
    ((sample [⟨0, 0⟩, ⟨50, 64⟩, ⟨100, 0⟩] 5 (-1) false []).m_vNodes.getD 0 default).x <
      ((OnMotionInterior (sample [⟨0, 0⟩, ⟨50, 64⟩, ⟨100, 0⟩] 5 (-1) false []) 1
        ⟨1000, 500⟩).m_vNodes.getD 1 default).x ∧
    ((OnMotionInterior (sample [⟨0, 0⟩, ⟨50, 64⟩, ⟨100, 0⟩] 5 (-1) false []) 1
        ⟨1000, 500⟩).m_vNodes.getD 1 default).x <
      ((sample [⟨0, 0⟩, ⟨50, 64⟩, ⟨100, 0⟩] 5 (-1) false []).m_vNodes.getD 2 default).x ∧
    sortedByX (OnMotionInterior (sample [⟨0, 0⟩, ⟨50, 64⟩, ⟨100, 0⟩] 5 (-1) false []) 1
      ⟨1000, 500⟩).m_vNodes :=
  ⟨by decide,
   (OnMotionInterior_clamps _ 1 ⟨1000, 500⟩ (by decide) (by decide) (by decide)
     (by decide) (by decide)).1,
   (OnMotionInterior_clamps _ 1 ⟨1000, 500⟩ (by decide) (by decide) (by decide)
     (by decide) (by decide)).2.1,
   (OnMotionInterior_clamps _ 1 ⟨1000, 500⟩ (by decide) (by decide) (by decide)
     (by decide) (by decide)).2.2.2.2⟩

/-- C7: for a node within the configured value bounds (x non-negative, y
within [m_nMinimumY, m_nMaximumY]) and non-zero scale factors, converting
to screen coordinates and back reproduces the node exactly (well within
the rounding tolerance of the scale factors). -/
theorem GetNodeFromCentre_GetNodeCentre (g : EnvelopeGraph) (p : Point)
    (hx : 0 ≤ p.x) (hy1 : g.m_nMinimumY ≤ p.y) (hy2 : p.y ≤ g.m_nMaximumY)
    (hsx : g.m_nScaleX ≠ 0) (hsy : g.m_nScaleY ≠ 0) :
    GetNodeFromCentre g (GetNodeCentre g p) = p := by
  obtain ⟨px, py⟩ := p
  simp only [GetNodeFromCentre, GetNodeCentre, clampI, Point.mk.injEq]
  constructor
  · have h1 : g.m_nOriginX + px * g.m_nScaleX - g.m_nScrollX + g.m_nScrollX -
        g.m_nOriginX = px * g.m_nScaleX := by ring
    rw [h1, Int.mul_ediv_cancel _ hsx]
    exact max_eq_right hx
  · have h2 : g.m_nBaseline - (g.m_nBaseline - py * g.m_nScaleY - g.m_nScrollY +
        g.m_nScrollY) = py * g.m_nScaleY := by ring
    rw [h2, Int.mul_ediv_cancel _ hsy, min_eq_right hy2]
    exact max_eq_right hy1

/-- Witness for C7 on a concrete state and node. -/
theorem GetNodeFromCentre_GetNodeCentre_witness :
    (0 : Int) ≤ (⟨50, 64⟩ : Point).x ∧
    (sample [⟨0, 0⟩, ⟨100, 0⟩] 5 (-1) false []).m_nMinimumY ≤ (⟨50, 64⟩ : Point).y ∧
    (⟨50, 64⟩ : Point).y ≤ (sample [⟨0, 0⟩, ⟨100, 0⟩] 5 (-1) false []).m_nMaximumY ∧
    GetNodeFromCentre (sample [⟨0, 0⟩, ⟨100, 0⟩] 5 (-1) false [])
      (GetNodeCentre (sample [⟨0, 0⟩, ⟨100, 0⟩] 5 (-1) false []) ⟨50, 64⟩) =
      ⟨50, 64⟩ :=
  ⟨by decide, by decide, by decide,
   GetNodeFromCentre_GetNodeCentre _ ⟨50, 64⟩ (by decide) (by decide) (by decide)
     (by decide) (by decide)⟩

/-- C8: `SetMaxNodes n` never truncates or alters the node sequence, and
while the count still exceeds the new cap every `AddNode` fails with -1
and leaves the state unchanged. -/
theorem SetMaxNodes_no_truncate (g : EnvelopeGraph) (n : Nat) (p : Point)
    (h : n < g.m_vNodes.length) :
    (SetMaxNodes n g).m_vNodes = g.m_vNodes ∧
    AddNode p (SetMaxNodes n g) = (SetMaxNodes n g, -1) := by
  refine ⟨rfl, ?_⟩
  unfold AddNode SetMaxNodes
  rw [if_pos (Nat.le_of_lt h)]

/-- Witness for C8: capping a 3-node state at 2 keeps all 3 nodes and
makes a further `AddNode` fail. -/
theorem SetMaxNodes_no_truncate_witness :
    2 < (sample [⟨0, 0⟩, ⟨50, 64⟩, ⟨100, 0⟩] 5 (-1) false []).m_vNodes.length ∧
    (SetMaxNodes 2 (sample [⟨0, 0⟩, ⟨50, 64⟩, ⟨100, 0⟩] 5 (-1) false [])).m_vNodes =
      (sample [⟨0, 0⟩, ⟨50, 64⟩, ⟨100, 0⟩] 5 (-1) false []).m_vNodes ∧
    AddNode ⟨25, 3⟩ (SetMaxNodes 2 (sample [⟨0, 0⟩, ⟨50, 64⟩, ⟨100, 0⟩] 5 (-1) false [])) =
      (SetMaxNodes 2 (sample [⟨0, 0⟩, ⟨50, 64⟩, ⟨100, 0⟩] 5 (-1) false []), -1) :=
  ⟨by decide,
   (SetMaxNodes_no_truncate _ 2 ⟨25, 3⟩ (by decide)).1,
   (SetMaxNodes_no_truncate _ 2 ⟨25, 3⟩ (by decide)).2⟩

/-- C9: `SetNode` is a no-op on an out-of-bounds index; on an in-bounds
index it overwrites exactly that node with the point as given (no
re-sorting: every other position is untouched and index `i` holds
precisely the supplied point). -/
theorem SetNode_spec (g : EnvelopeGraph) (i : Nat) (p : Point) :
    (g.m_vNodes.length ≤ i → SetNode i p g = g) ∧
    (i < g.m_vNodes.length →
      (SetNode i p g).m_vNodes = g.m_vNodes.set i p ∧
      (SetNode i p g).m_vNodes[i]? = some p ∧
      ∀ j : Nat, j ≠ i → (SetNode i p g).m_vNodes[j]? = g.m_vNodes[j]?) := by
  constructor
  · intro h
    unfold SetNode
    rw [if_neg (by omega)]
  · intro h
    unfold SetNode
    rw [if_pos h]
    refine ⟨rfl, ?_, ?_⟩
    · exact List.getElem?_set_eq_of_lt p h
    · intro j hj
      exact List.getElem?_set_ne (fun hij => hj hij.symm)

/-- Witness for C9: overwriting node 1 of a sorted 3-node state with an
order-violating point stores it verbatim. -/
theorem SetNode_spec_witness :
    (1 < (sample [⟨0, 0⟩, ⟨50, 64⟩, ⟨100, 0⟩] 5 (-1) false []).m_vNodes.length) ∧
    (SetNode 1 ⟨500, 7⟩ (sample [⟨0, 0⟩, ⟨50, 64⟩, ⟨100, 0⟩] 5 (-1) false [])).m_vNodes =
      (sample [⟨0, 0⟩, ⟨50, 64⟩, ⟨100, 0⟩] 5 (-1) false []).m_vNodes.set 1 ⟨500, 7⟩ :=
  ⟨by decide,
   ((SetNode_spec (sample [⟨0, 0⟩, ⟨50, 64⟩, ⟨100, 0⟩] 5 (-1) false []) 1 ⟨500, 7⟩).2
     (by decide)).1⟩

lemma events_AddNode_inhibited (p : Point) (g : EnvelopeGraph)
    (h : g.m_bInhibitUpdate = true) : (AddNode p g).1.events = g.events := by
  unfold AddNode
  split
  · rfl
  · exact SendEvent_events_of_inhibited _ h

lemma events_RemoveNode_inhibited (i : Nat) (g : EnvelopeGraph)
    (h : g.m_bInhibitUpdate = true) : (RemoveNode i g).1.events = g.events := by
  unfold RemoveNode
  split
  · rfl
  · split
    · rfl
    · split
      · rfl
      · exact SendEvent_events_of_inhibited _ h

lemma events_Clear_inhibited (g : EnvelopeGraph)
    (h : g.m_bInhibitUpdate = true) : (Clear g).events = g.events := by
  unfold Clear
  exact SendEvent_events_of_inhibited _ h

lemma events_SetSustain_inhibited (n : Int) (g : EnvelopeGraph)
    (h : g.m_bInhibitUpdate = true) : (SetSustain n g).events = g.events := by
  unfold SetSustain
  exact SendEvent_events_of_inhibited _ h

lemma events_OnMouseLeftUp_inhibited (g : EnvelopeGraph)
    (h : g.m_bInhibitUpdate = true) : (OnMouseLeftUp g).events = g.events := by
  unfold OnMouseLeftUp
  exact SendEvent_events_of_inhibited _ h

lemma events_AddNode_active (p : Point) (g : EnvelopeGraph)
    (h : g.m_bInhibitUpdate = false) (hsucc : (AddNode p g).2 ≠ -1) :
    (AddNode p g).1.events = g.events + 1 := by
  by_cases hc : g.m_vNodes.length ≥ g.m_nMaxNodes
  · exfalso
    apply hsucc
    unfold AddNode
    rw [if_pos hc]
  · unfold AddNode
    rw [if_neg hc]
    exact SendEvent_events_of_active _ h

lemma events_RemoveNode_active (i : Nat) (g : EnvelopeGraph)
    (h : g.m_bInhibitUpdate = false) (hsucc : (RemoveNode i g).2 = true) :
    (RemoveNode i g).1.events = g.events + 1 := by
  by_cases hoob : g.m_vNodes.length ≤ i
  · exfalso
    unfold RemoveNode at hsucc
    rw [if_pos hoob] at hsucc
    simp at hsucc
  · by_cases h2 : g.m_vNodes.length ≤ 2
    · exfalso
      unfold RemoveNode at hsucc
      rw [if_neg hoob, if_pos h2] at hsucc
      simp at hsucc
    · by_cases hdis : g.m_vNodes.getD i default ∈ g.m_vRemoveDisabled
      · exfalso
        unfold RemoveNode at hsucc
        rw [if_neg hoob, if_neg h2, if_pos hdis] at hsucc
        simp at hsucc
      · unfold RemoveNode
        rw [if_neg hoob, if_neg h2, if_neg hdis]
        exact SendEvent_events_of_active _ h

lemma events_Clear_active (g : EnvelopeGraph)
    (h : g.m_bInhibitUpdate = false) : (Clear g).events = g.events + 1 := by
  unfold Clear
  exact SendEvent_events_of_active _ h

lemma events_SetSustain_active (n : Int) (g : EnvelopeGraph)
    (h : g.m_bInhibitUpdate = false) : (SetSustain n g).events = g.events + 1 := by
  unfold SetSustain
  exact SendEvent_events_of_active _ h

lemma events_OnMouseLeftUp_active (g : EnvelopeGraph)
    (h : g.m_bInhibitUpdate = false) : (OnMouseLeftUp g).events = g.events + 1 := by
  unfold OnMouseLeftUp
  exact SendEvent_events_of_active _ h

/-- C6: after `InhibitUpdates true`, no mutation (add, remove, clear,
sustain-change, drag-finalize) emits any change notification; after
`InhibitUpdates false`, each committed mutation emits exactly one (the
event is a bare counter increment, carrying no payload). -/
theorem InhibitUpdates_events (g : EnvelopeGraph) (p : Point) (i : Nat) (n : Int) :
    (AddNode p (InhibitUpdates true g)).1.events = g.events ∧
    (RemoveNode i (InhibitUpdates true g)).1.events = g.events ∧
    (Clear (InhibitUpdates true g)).events = g.events ∧
    (SetSustain n (InhibitUpdates true g)).events = g.events ∧
    (OnMouseLeftUp (InhibitUpdates true g)).events = g.events ∧
    ((AddNode p (InhibitUpdates false g)).2 ≠ -1 →
      (AddNode p (InhibitUpdates false g)).1.events = g.events + 1) ∧
    ((RemoveNode i (InhibitUpdates false g)).2 = true →
      (RemoveNode i (InhibitUpdates false g)).1.events = g.events + 1) ∧
    (Clear (InhibitUpdates false g)).events = g.events + 1 ∧
    (SetSustain n (InhibitUpdates false g)).events = g.events + 1 ∧
    (OnMouseLeftUp (InhibitUpdates false g)).events = g.events + 1 :=
  ⟨events_AddNode_inhibited p _ rfl,
   events_RemoveNode_inhibited i _ rfl,
   events_Clear_inhibited _ rfl,
   events_SetSustain_inhibited n _ rfl,
   events_OnMouseLeftUp_inhibited _ rfl,
   fun hsucc => events_AddNode_active p _ rfl hsucc,
   fun hsucc => events_RemoveNode_active i _ rfl hsucc,
   events_Clear_active _ rfl,
   events_SetSustain_active n _ rfl,
   events_OnMouseLeftUp_active _ rfl⟩

/-- Witness for C6 on a concrete 3-node state: zero events while
inhibited, exactly one per committed mutation once re-enabled. -/
theorem InhibitUpdates_events_witness :
    (AddNode ⟨25, 5⟩ (InhibitUpdates true
      (sample [⟨0, 0⟩, ⟨50, 64⟩, ⟨100, 0⟩] 5 (-1) false []))).1.events =
      (sample [⟨0, 0⟩, ⟨50, 64⟩, ⟨100, 0⟩] 5 (-1) false []).events ∧
    (RemoveNode 1 (InhibitUpdates true
      (sample [⟨0, 0⟩, ⟨50, 64⟩, ⟨100, 0⟩] 5 (-1) false []))).1.events =
      (sample [⟨0, 0⟩, ⟨50, 64⟩, ⟨100, 0⟩] 5 (-1) false []).events ∧
    (AddNode ⟨25, 5⟩ (InhibitUpdates false
      (sample [⟨0, 0⟩, ⟨50, 64⟩, ⟨100, 0⟩] 5 (-1) false []))).1.events =
      (sample [⟨0, 0⟩, ⟨50, 64⟩, ⟨100, 0⟩] 5 (-1) false []).events + 1 ∧
    (RemoveNode 1 (InhibitUpdates false
      (sample [⟨0, 0⟩, ⟨50, 64⟩, ⟨100, 0⟩] 5 (-1) false []))).1.events =
      (sample [⟨0, 0⟩, ⟨50, 64⟩, ⟨100, 0⟩] 5 (-1) false []).events + 1 ∧
    (Clear (InhibitUpdates false
      (sample [⟨0, 0⟩, ⟨50, 64⟩, ⟨100, 0⟩] 5 (-1) false []))).events =
      (sample [⟨0, 0⟩, ⟨50, 64⟩, ⟨100, 0⟩] 5 (-1) false []).events + 1 := by
  have t := InhibitUpdates_events
    (sample [⟨0, 0⟩, ⟨50, 64⟩, ⟨100, 0⟩] 5 (-1) false []) ⟨25, 5⟩ 1 2
  exact ⟨t.1, t.2.1, t.2.2.2.2.2.1 (by decide), t.2.2.2.2.2.2.1 (by decide),
    t.2.2.2.2.2.2.2.1⟩

/-- C10: a freshly constructed graph has updates inhibited, no sustain
node and adding enabled (per the header's in-class initializers), and
every mutation performed right after construction emits no change
event. -/
theorem construct_defaults (mx : Nat) (minY maxY sx sy ox bl : Int)
    (p : Point) (i : Nat) (n : Int) :
    (construct mx minY maxY sx sy ox bl).m_bInhibitUpdate = true ∧
    (construct mx minY maxY sx sy ox bl).GetSustain = -1 ∧
    (construct mx minY maxY sx sy ox bl).m_bAllowAddNodes = true ∧
    (AddNode p (construct mx minY maxY sx sy ox bl)).1.events = 0 ∧
    (RemoveNode i (construct mx minY maxY sx sy ox bl)).1.events = 0 ∧
    (Clear (construct mx minY maxY sx sy ox bl)).events = 0 ∧
    (SetSustain n (construct mx minY maxY sx sy ox bl)).events = 0 ∧
    (OnMouseLeftUp (construct mx minY maxY sx sy ox bl)).events = 0 := by
  refine ⟨rfl, rfl, rfl, ?_, ?_, ?_, ?_, ?_⟩
  · unfold AddNode
    split
    · rfl
    · rw [SendEvent_of_inhibited _ rfl]
      rfl
  · unfold RemoveNode
    split
    · rfl
    · split
      · rfl
      · split
        · rfl
        · rw [SendEvent_of_inhibited _ rfl]
          rfl
  · unfold Clear
    rw [SendEvent_of_inhibited _ rfl]
    rfl
  · unfold SetSustain
    rw [SendEvent_of_inhibited _ rfl]
    rfl
  · unfold OnMouseLeftUp
    rw [SendEvent_of_inhibited _ rfl]
    rfl
